import Mathlib

/-!
Verification development for the pystacia / tinyimg foreign-function bridge.

The definitions below are a shallow embedding of the Python sources:

* `pystacia/api/func.py` — name formatters (`magick_format`, `image_format`,
  `pixel_format`), the symbol descriptor table `data`, the lazy signature
  binder `get_c_method`, the dispatcher `c_call`, the legacy `guard`
  error check, and the `get_bridge` policy selector;
* `pystacia/util.py` — the `memoized` cache, modelled as explicit
  cache-state threading;
* `tinyimg/__init__.py` — `init`, `only_live` and `Image.close`.

Native state (the loaded shared library, native call results, the
exception facility) is modelled as explicit environments; every dispatched
native invocation is recorded in a trace so that ordering properties can be
stated.
-/

set_option autoImplicit false

/-- Native argument/result types drawn from ctypes declarations in the
source (`MagickWand_p`, `PixelWand_p`, `MagickBoolean`, `ExceptionType`,
`c_char_p`, `c_void_p`, `c_size_t`, `c_ssize_t`, `c_double`, `c_uint`,
`enum`, and `POINTER(...)` applications). -/
inductive CType where
  | MagickWand_p
  | PixelWand_p
  | MagickBoolean
  | exceptionType
  | c_char_p
  | c_void_p
  | c_size_t
  | c_ssize_t
  | c_double
  | c_uint
  | enum
  | ptr (t : CType)
  deriving DecidableEq, Repr

/-- Receiver categories keying the descriptor table `data` in
`pystacia/api/func.py`: the Python keys `None`, `'magick'`, `'magick_'`,
`'wand'`, `'pwand'`, `'image'`, `'pixel'`. -/
inductive Category where
  | noneCat
  | magick
  | magick_
  | wand
  | pwand
  | image
  | pixel
  deriving DecidableEq, Repr

/-- Logical method keys of the descriptor table: either a plain string
(e.g. `'resize'`) or a verb/noun pair (e.g. `('set', 'format')`). -/
inductive MethodKey where
  | str (s : String)
  | pair (verb noun : String)
  deriving DecidableEq, Repr

/-- Python exceptions that the embedded code can raise. -/
inductive PyErr where
  | pystacia (msg : Option String)
  | tiny (msg : String)
  | attributeError
  | keyError
  | typeError
  | indexError
  | recursionError
  deriving DecidableEq, Repr

/-- Python `str.title()` on ASCII text: a letter is uppercased when the
preceding character is not a letter and lowercased otherwise. -/
def pyTitleAux : Bool → List Char → List Char
  | _, [] => []
  | prevAlpha, c :: cs =>
    if c.isAlpha then
      (if prevAlpha then c.toLower else c.toUpper) :: pyTitleAux true cs
    else
      c :: pyTitleAux false cs

/-- Python `name.title()`. -/
def pyTitle (s : String) : String :=
  ⟨pyTitleAux false s.data⟩

/-- Python `name.split('_')` (explicit separator: an empty string yields
one empty chunk, consecutive separators yield empty chunks). -/
def splitUnderscoreAux : List Char → List Char → List String
  | acc, [] => [⟨acc.reverse⟩]
  | acc, c :: cs =>
    if c = '_' then ⟨acc.reverse⟩ :: splitUnderscoreAux [] cs
    else splitUnderscoreAux (c :: acc) cs

/-- Python `name.split('_')` on a string. -/
def splitUnderscore (s : String) : List String :=
  splitUnderscoreAux [] s.data

/-- Python idiom used by the formatters, joining the title-cased
underscore-separated chunks of a name. -/
def joinTitle (s : String) : String :=
  String.join ((splitUnderscore s).map pyTitle)

/-- Embedding of `magick_format` from `pystacia/api/func.py`. -/
def magick_format (name : String) : String :=
  "Magick" ++ joinTitle name

/-- Embedding of `image_format` from `pystacia/api/func.py`: a plain
string name is the verb with an empty noun; a two-element key supplies verb
and noun. -/
def image_format (name : MethodKey) : String :=
  let vn : String × String :=
    match name with
    | .str s => (s, "")
    | .pair v n => (v, n)
  "Magick" ++ joinTitle vn.1 ++ "Image" ++ joinTitle vn.2

/-- Embedding of `pixel_format` from `pystacia/api/func.py`. -/
def pixel_format (name : String) : String :=
  if name = "get_hsl" then "Pixel" ++ "GetHSL"
  else "Pixel" ++ joinTitle name

/-- A symbol descriptor: the declared non-receiver argument types and the
optional explicit result type (the 1- or 2-tuples of the `data` table). -/
abbrev Descr := List CType × Option CType

/-- One category of the descriptor table: the name formatter (which raises
for keys of the wrong shape, e.g. a pair given to a plain-string
formatter), the optional receiver type (`'arg'`), the optional default
result type (`'result'`) and the symbol descriptors. -/
structure TypeData where
  fmt : MethodKey → Except PyErr String
  arg : Option CType
  result : Option CType
  symbols : List (MethodKey × Descr)

/-- Formatter wrapper for categories whose formatter expects a plain
string; handing it a tuple raises in Python (`AttributeError` on a missing
string method). -/
def strFmt (f : String → String) : MethodKey → Except PyErr String
  | .str s => .ok (f s)
  | .pair _ _ => .error .attributeError

open CType in
/-- Embedding of the descriptor table `data` of `pystacia/api/func.py`. -/
def tdata : Category → TypeData
  | .noneCat =>
    { fmt := strFmt (fun name => "MagickWand" ++ pyTitle name)
      arg := none
      result := none
      symbols := [
        (.str "genesis", ([], none)),
        (.str "terminus", ([], none))] }
  | .magick =>
    { fmt := strFmt magick_format
      arg := some MagickWand_p
      result := none
      symbols := [
        (.str "set_size", ([c_size_t, c_size_t], some MagickBoolean)),
        (.str "get_format", ([], some c_char_p)),
        (.str "set_format", ([c_char_p], some MagickBoolean)),
        (.str "set_depth", ([c_size_t], some MagickBoolean)),
        (.str "get_exception", ([ptr exceptionType], some c_void_p))] }
  | .magick_ =>
    { fmt := strFmt magick_format
      arg := none
      result := none
      symbols := [
        (.str "query_configure_options",
          ([c_char_p, ptr c_size_t], some (ptr c_char_p))),
        (.str "query_configure_option", ([c_char_p], some c_char_p)),
        (.str "get_version", ([ptr c_size_t], some c_char_p)),
        (.str "relinquish_memory", ([c_void_p], some c_void_p))] }
  | .wand =>
    { fmt := strFmt (fun name => pyTitle name ++ "MagickWand")
      arg := none
      result := some MagickWand_p
      symbols := [
        (.str "new", ([], none)),
        (.str "clone", ([MagickWand_p], none)),
        (.str "destroy", ([MagickWand_p], none))] }
  | .pwand =>
    { fmt := strFmt (fun name => pyTitle name ++ "PixelWand")
      arg := none
      result := some PixelWand_p
      symbols := [
        (.str "new", ([], none)),
        (.str "clone", ([PixelWand_p], none)),
        (.str "destroy", ([PixelWand_p], none))] }
  | .image =>
    { fmt := fun k => .ok (image_format k)
      arg := some MagickWand_p
      result := none
      symbols := [
        (.str "read", ([c_char_p], some MagickBoolean)),
        (.str "write", ([c_char_p], some MagickBoolean)),
        (.pair "read" "blob", ([c_void_p, c_size_t], some MagickBoolean)),
        (.pair "get" "blob", ([ptr c_size_t], some c_void_p)),
        (.pair "set" "format", ([c_char_p], some MagickBoolean)),
        (.pair "get" "format", ([], some c_char_p)),
        (.pair "set" "compression_quality", ([c_size_t], some MagickBoolean)),
        (.pair "get" "compression_quality", ([], some c_size_t)),
        (.pair "get" "width", ([], some c_size_t)),
        (.pair "get" "height", ([], some c_size_t)),
        (.pair "get" "depth", ([], some c_size_t)),
        (.pair "set" "depth", ([c_size_t], some MagickBoolean)),
        (.pair "get" "type", ([], some enum)),
        (.pair "set" "type", ([enum], some MagickBoolean)),
        (.pair "get" "colorspace", ([], some enum)),
        (.pair "set" "colorspace", ([enum], some MagickBoolean)),
        (.pair "get" "pixel_color",
          ([c_ssize_t, c_ssize_t, PixelWand_p], some MagickBoolean)),
        (.pair "set" "background_color", ([PixelWand_p], some MagickBoolean)),
        (.pair "get" "background_color", ([PixelWand_p], some MagickBoolean)),
        (.pair "transform" "colorspace", ([enum], some MagickBoolean)),
        (.str "resize",
          ([c_size_t, c_size_t, enum, c_double], some MagickBoolean)),
        (.str "crop",
          ([c_size_t, c_size_t, c_ssize_t, c_ssize_t], some MagickBoolean)),
        (.str "rotate", ([PixelWand_p, c_double], some MagickBoolean)),
        (.str "flip", ([], some MagickBoolean)),
        (.str "flop", ([], some MagickBoolean)),
        (.str "transpose", ([], some MagickBoolean)),
        (.str "transverse", ([], some MagickBoolean)),
        (.str "shear",
          ([PixelWand_p, c_double, c_double], some MagickBoolean)),
        (.str "roll", ([c_ssize_t, c_ssize_t], some MagickBoolean)),
        (.str "deskew", ([c_double], some MagickBoolean)),
        (.str "trim", ([c_double], some MagickBoolean)),
        (.str "splice",
          ([c_size_t, c_size_t, c_ssize_t, c_ssize_t], some MagickBoolean)),
        (.str "brightness_contrast",
          ([c_double, c_double], some MagickBoolean)),
        (.str "gamma", ([c_double], some MagickBoolean)),
        (.str "auto_gamma", ([], some MagickBoolean)),
        (.str "auto_level", ([], some MagickBoolean)),
        (.str "modulate",
          ([c_double, c_double, c_double], some MagickBoolean)),
        (.str "sepia_tone", ([c_double], some MagickBoolean)),
        (.str "equalize", ([], some MagickBoolean)),
        (.str "negate", ([MagickBoolean], some MagickBoolean)),
        (.str "solarize", ([c_double], some MagickBoolean)),
        (.str "posterize", ([c_uint, MagickBoolean], some MagickBoolean)),
        (.str "blur", ([c_double, c_double], some MagickBoolean)),
        (.str "radial_blur", ([c_double], some MagickBoolean)),
        (.str "enhance", ([], some MagickBoolean)),
        (.str "despeckle", ([], some MagickBoolean)),
        (.str "emboss", ([c_double, c_double], some MagickBoolean)),
        (.str "swirl", ([c_double], some MagickBoolean)),
        (.str "wave", ([c_double, c_double], some MagickBoolean)),
        (.str "sketch",
          ([c_double, c_double, c_double], some MagickBoolean)),
        (.str "oil_paint", ([c_double], some MagickBoolean)),
        (.str "spread", ([c_double], some MagickBoolean)),
        (.str "forward_fourier_transform",
          ([MagickBoolean], some MagickBoolean)),
        (.str "fx", ([c_char_p], some MagickWand_p)),
        (.str "colorize", ([PixelWand_p, PixelWand_p], some MagickBoolean)),
        (.pair "set" "color", ([PixelWand_p], some MagickBoolean)),
        (.pair "set" "opacity", ([c_double], some MagickBoolean)),
        (.str "composite",
          ([MagickWand_p, enum, c_ssize_t, c_ssize_t], some MagickBoolean)),
        (.str "next", ([], some MagickBoolean))] }
  | .pixel =>
    { fmt := strFmt pixel_format
      arg := some PixelWand_p
      result := none
      symbols := [
        (.str "set_red", ([c_double], none)),
        (.str "get_red", ([], some c_double)),
        (.str "set_green", ([c_double], none)),
        (.str "get_green", ([], some c_double)),
        (.str "set_blue", ([c_double], none)),
        (.str "get_blue", ([], some c_double)),
        (.str "set_alpha", ([c_double], none)),
        (.str "get_alpha", ([], some c_double)),
        (.str "set_color", ([c_char_p], some MagickBoolean)),
        (.str "get_hsl",
          ([ptr c_double, ptr c_double, ptr c_double], none))] }

/-- A ctypes function object: the mutable `argtypes`/`restype` fields.
A freshly looked-up symbol has `argtypes = none` (ctypes default). -/
structure CFunc where
  argtypes : Option (List CType)
  restype : Option CType
  deriving DecidableEq, Repr

/-- The loaded native library viewed as a mutable table of exported
symbols, keyed by their exported name. -/
abbrev Dll := List (String × CFunc)

/-- Look up an exported symbol (Python `getattr`/`hasattr`). -/
def dllLookup : Dll → String → Option CFunc
  | [], _ => none
  | (n, f) :: rest, name => if n = name then some f else dllLookup rest name

/-- Mutate the `argtypes`/`restype` fields of one exported symbol. -/
def dllUpdate : Dll → String → CFunc → Dll
  | [], _, _ => []
  | (n, f) :: rest, name, f' =>
    if n = name then (n, f') :: rest else (n, f) :: dllUpdate rest name f'

/-- Association-list lookup over the descriptor lists of the table. -/
def lookupKey : List (MethodKey × Descr) → MethodKey → Option Descr
  | [], _ => none
  | (k, d) :: rest, key => if k = key then some d else lookupKey rest key

/-- The receiver of a dispatched call: either a `Resource` instance
(carrying its raw pointer and its class `_api_type`) or a bare category
tag such as the string `'magick'`. -/
inductive CObj where
  | resource (p : Nat) (cat : Category)
  | tag (cat : Category)
  deriving DecidableEq, Repr

/-- The api type used by `get_c_method`: the class `_api_type` for a
`Resource`, the object itself for a bare tag. -/
def apiType : CObj → Category
  | .resource _ cat => cat
  | .tag cat => cat

/-- Outcome of `get_c_method`: the falsy `False` sentinel (no-throw probe
of an absent symbol) or the `(method_name, c_method)` pair. -/
inductive Resolved where
  | unavailable
  | bound (name : String) (f : CFunc)
  deriving DecidableEq, Repr

/-- Source line `argtypes = (type_data['arg'],) + argtypes`, guarded by
`if 'arg' in type_data`. -/
def prependReceiver : Option CType → List CType → List CType
  | some a, ts => a :: ts
  | none, ts => ts

/-- Source lines `restype = type_data.get('result')`, overridden by
`method_data[1]` when the descriptor tuple has two elements. -/
def resultOf : Option CType → Option CType → Option CType
  | some r, _ => some r
  | none, dflt => dflt

/-- Embedding of `get_c_method` from `pystacia/api/func.py`.  Returns the
resolution outcome together with the possibly-mutated symbol table. -/
def get_c_method (obj : CObj) (method : MethodKey) (throw : Bool)
    (dll : Dll) : Except PyErr (Resolved × Dll) :=
  let td := tdata (apiType obj)
  match td.fmt method with
  | .error e => .error e
  | .ok method_name =>
    if ¬ throw ∧ (dllLookup dll method_name).isNone then
      .ok (.unavailable, dll)
    else
      match dllLookup dll method_name with
      | none => .error .attributeError
      | some c_method =>
        match c_method.argtypes with
        | some _ => .ok (.bound method_name c_method, dll)
        | none =>
          match lookupKey td.symbols method with
          | none => .error .keyError
          | some method_data =>
            let f' : CFunc := ⟨some (prependReceiver td.arg method_data.1),
                               resultOf method_data.2 td.result⟩
            .ok (.bound method_name f', dllUpdate dll method_name f')

/-- Runtime values crossing the dispatcher boundary: `Resource` instances
(wrapping a raw pointer), raw pointers, text, byte strings, integers,
`MagickBoolean` and enum result instances, the `ExceptionType()`
out-parameter, and Python `None`. -/
inductive Value where
  | res (p : Nat)
  | ptr (p : Nat)
  | str (s : String)
  | bytes (s : String)
  | int (n : Int)
  | boolV (b : Bool)
  | enumV (n : Int)
  | excTypeOut
  | null
  deriving DecidableEq, Repr

/-- The `six.b` encoder applied at byte-string positions: textual values
are encoded to bytes, byte values pass through. -/
def pyB : Value → Value
  | .str s => .bytes s
  | v => v

/-- One iteration of the marshaling loop of `c_call`: a `Resource`
argument is unwrapped to its raw pointer (`arg.resource`), otherwise a
value at a `c_char_p` position is encoded to bytes. -/
def marshalOne (t : CType) (arg : Value) : Value :=
  match arg with
  | .res p => .ptr p
  | a => if t = CType.c_char_p then pyB a else a

/-- Source line `args = (obj,) + args` guarded by
`isinstance(obj, Resource)`. -/
def receiverPrepended (obj : CObj) (args : List Value) : List Value :=
  match obj with
  | .resource p _ => .res p :: args
  | .tag _ => args

/-- The fully marshaled argument list of `c_call`: the receiver-extended
argument tuple zipped against the declared `argtypes`
(`zip(args, c_method.argtypes)`). -/
def marshal_args (obj : CObj) (args : List Value) (argtypes : List CType) :
    List Value :=
  List.zipWith (fun a t => marshalOne t a) (receiverPrepended obj args)
    argtypes

/-- The native side of a dispatched call: the value returned by an
exported symbol for given marshaled arguments, and the text read from a
description buffer (`native_str(string_at(...))`, `string_at` and
`native_str` live in the absent `pystacia/compat.py` and ctypes; they are
modelled together as reading the C string a pointer designates). -/
structure NativeEnv where
  call : String → List Value → Value
  stringAt : Value → String

/-- A recorded sequence of native invocations (symbol name and marshaled
arguments), in execution order. -/
abbrev Trace := List (String × List Value)

/-- Source test `not result.value` on a `MagickBoolean` result. -/
def boolVFalsy : Value → Bool
  | .boolV b => !b
  | _ => false

/-- Result decoding for textual results (`native_str(result)`; the
decoder itself lives in the absent `pystacia/compat.py`, modelled from the
spec sentence: decode bytes to text). -/
def native_str : Value → Value
  | .bytes s => .str s
  | v => v

/-- Result decoding for enum results (`result.value`). -/
def enumValue : Value → Value
  | .enumV n => .int n
  | v => v

/-- Embedding of `c_call` from `pystacia/api/func.py`.  The `fuel`
argument bounds the recursion used by the boolean-failure path (which
re-enters `c_call` for `('magick', 'get_exception')` and
`('magick_', 'relinquish_memory')`); the library-initialisation step
(`get_dll()`) manages global load state that is threaded here explicitly
as `dll`.  Returns the decoded result or raised exception, the updated
symbol table and the trace of native invocations. -/
def c_call : Nat → NativeEnv → Dll → CObj → MethodKey → List Value →
    (Except PyErr Value) × Dll × Trace
  | 0, _, dll, _, _, _ => (.error .recursionError, dll, [])
  | fuel + 1, env, dll, obj, method, args =>
    match get_c_method obj method true dll with
    | .error e => (.error e, dll, [])
    | .ok (.unavailable, dll1) => (.error .typeError, dll1, [])
    | .ok (.bound method_name c_method, dll1) =>
      let argtypes := c_method.argtypes.getD []
      let args_ := marshal_args obj args argtypes
      let result := env.call method_name args_
      let tr : Trace := [(method_name, args_)]
      if c_method.restype = some CType.c_char_p then
        (.ok (native_str result), dll1, tr)
      else if c_method.restype = some CType.enum then
        (.ok (enumValue result), dll1, tr)
      else if c_method.restype = some CType.MagickBoolean ∧
          boolVFalsy result then
        match args_ with
        | [] => (.error .indexError, dll1, tr)
        | a0 :: _ =>
          match c_call fuel env dll1 (.tag .magick) (.str "get_exception")
              [a0, .excTypeOut] with
          | (.ok description, dll2, tr2) =>
            match c_call fuel env dll2 (.tag .magick_)
                (.str "relinquish_memory") [description] with
            | (.ok _, dll3, tr3) =>
              (.error (.pystacia (some (env.stringAt description))),
               dll3, tr ++ tr2 ++ tr3)
            | (.error e, dll3, tr3) => (.error e, dll3, tr ++ tr2 ++ tr3)
          | (.error e, dll2, tr2) => (.error e, dll2, tr ++ tr2)
      else (.ok result, dll1, tr)

/-- Python falsiness of a value (`if not result:`, `if description:`):
`None`, false booleans, zero numbers, empty strings and the NULL pointer
are falsy. -/
def valueFalsy : Value → Bool
  | .null => true
  | .boolV b => !b
  | .int n => n == 0
  | .enumV n => n == 0
  | .str s => s.isEmpty
  | .bytes s => s.isEmpty
  | .ptr pv => pv == 0
  | .res _ => false
  | .excTypeOut => false

/-- Native facilities used by the legacy `guard`: the
`MagickGetException` call on the wand, and the
`cast(description, c_char_p).value` read, which yields `none` when the
description pointer is NULL. -/
structure GuardEnv where
  getException : Value → Value
  castCharP : Value → Option String

namespace Api

/-- Embedding of `guard` from `pystacia/api/func.py`; `result` is the
value returned by the guarded callable, `msg` the optional caller-supplied
message.  Returns the outcome and the trace of exception-facility
invocations. -/
def guard (env : GuardEnv) (wand : Value) (result : Value)
    (msg : Option String) : (Except PyErr Value) × Trace :=
  if valueFalsy result then
    if msg = none ∨ msg = some "" then
      let description := env.getException wand
      let m := env.castCharP description
      if ¬ valueFalsy description then
        (.error (.pystacia m),
         [("MagickGetException", [wand]),
          ("MagickRelinquishMemory", [description])])
      else
        (.error (.pystacia m), [("MagickGetException", [wand])])
    else (.error (.pystacia msg), [])
  else (.ok result, [])

end Api

/-- Execution-bridge implementation policies: the direct `SimpleImpl` and
the funneled `ThreadImpl` (constructed as `ThreadImpl(True)` in the
source).  Their internals live in `pystacia/bridge.py`, outside the
embedded sources, so they are opaque tags here. -/
inductive Impl where
  | simpleImpl
  | threadImpl (startArg : Bool)
  deriving DecidableEq, Repr

/-- A `CallBridge` over its implementation policy. -/
structure Bridge where
  impl : Impl
  deriving DecidableEq, Repr

/-- Python `str.upper()` on ASCII text. -/
def pyUpper (s : String) : String :=
  ⟨s.data.map Char.toUpper⟩

/-- Embedding of `get_bridge` from `pystacia/api/func.py` combined with
the `memoized` decorator of `pystacia/util.py`: the process-wide
memoization cache is threaded explicitly and holds the bridge computed by
the first call.  The environment value is `environ.get('PYSTACIA_IMPL',
'')` as an optional string.  Returns the bridge and the updated cache. -/
def get_bridge (envImpl : Option String) (cache : Option Bridge) :
    Bridge × Option Bridge :=
  match cache with
  | some b => (b, some b)
  | none =>
    let impl : Impl :=
      if pyUpper (envImpl.getD "") = "SIMPLE" then .simpleImpl
      else .threadImpl true
    let bridge : Bridge := ⟨impl⟩
    (bridge, some bridge)

/-- A tinyimg `Image`: the wrapped wand pointer and the closed flag. -/
structure TImage where
  wand : Option Nat
  closed : Bool
  deriving DecidableEq, Repr

/-- Outcome of a tinyimg operation: the result or raised exception, the
updated image, and the trace of native invocations. -/
abbrev TOutcome (α : Type) := (Except PyErr α) × TImage × Trace

/-- The raw `self.__wand` value passed to native calls. -/
def wandValue (image : TImage) : Value :=
  match image.wand with
  | some pw => .ptr pw
  | none => .null

/-- Embedding of the `only_live` decorator of `tinyimg/__init__.py`: a
closed image raises `TinyException('Image already closed')` before the
wrapped body, and hence before any native call, runs. -/
def only_live {α : Type} (f : TImage → TOutcome α) (image : TImage) :
    TOutcome α :=
  if image.closed then (.error (.tiny "Image already closed"), image, [])
  else f image

/-- Body of `Image.close`: call `DestroyMagickWand(self.__wand)`, clear
the pointer, mark the image closed. -/
def closeBody (image : TImage) : TOutcome Unit :=
  (.ok (), { wand := none, closed := true },
   [("DestroyMagickWand", [wandValue image])])

/-- `Image.close`, decorated with `only_live` in the source. -/
def close (image : TImage) : TOutcome Unit :=
  only_live closeBody image

/-- `Image.__del__`: closes the image unless it is already closed. -/
def del (image : TImage) : TOutcome Unit :=
  if image.closed then (.ok (), image, []) else close image

/-- The process environment seen by `tinyimg.init`: `find_library` and
`CDLL` loading, the latter yielding `none` when the library cannot be
found or loaded. -/
structure LoadEnv where
  findLibrary : String → Option String
  loadCDLL : Option String → Option Nat

/-- Embedding of `init` from `tinyimg/__init__.py`: load the shared
library by its well-known name (raising on failure), annotate the
signatures, invoke `MagickWandGenesis`, and register `MagickWandTerminus`
as an atexit hook.  Returns the loaded handle or the raised error, the
trace of native calls made during initialization, and the list of
registered exit hooks. -/
def init (env : LoadEnv) : (Except PyErr Nat) × Trace × List String :=
  match env.loadCDLL (env.findLibrary "magickWand") with
  | none => (.error (.tiny "Could not find or load magickWand"), [], [])
  | some handle =>
    (.ok handle, [("MagickWandGenesis", [])], ["MagickWandTerminus"])


theorem dllLookup_update_self (dll : Dll) (name : String) (f f' : CFunc)
    (h : dllLookup dll name = some f) :
    dllLookup (dllUpdate dll name f') name = some f' := by
  induction dll with
  | nil => simp [dllLookup] at h
  | cons hd tl ih =>
    obtain ⟨n, g⟩ := hd
    by_cases hn : n = name
    · simp [dllLookup, dllUpdate, hn]
    · simp [dllLookup, dllUpdate, hn] at h ⊢
      exact ih h

theorem dllLookup_update_other (dll : Dll) (name n : String) (f' : CFunc)
    (h : n ≠ name) :
    dllLookup (dllUpdate dll name f') n = dllLookup dll n := by
  induction dll with
  | nil => simp [dllUpdate, dllLookup]
  | cons hd tl ih =>
    obtain ⟨m, g⟩ := hd
    by_cases hm : m = name
    · subst hm
      simp [dllUpdate, dllLookup, if_neg (Ne.symm h)]
    · simp only [dllUpdate, if_neg hm, dllLookup]
      by_cases hm2 : m = n <;> simp [hm2, ih]

/-- Any successful `get_c_method` call leaves symbols that already carry a
contract untouched: their lookup result survives in the output table. -/
theorem get_c_method_preserves_attached
    (obj : CObj) (method : MethodKey) (throw : Bool) (dll dll2 : Dll)
    (r : Resolved) (name : String) (f : CFunc) (ats : List CType)
    (hf : dllLookup dll name = some f) (hats : f.argtypes = some ats)
    (h : get_c_method obj method throw dll = .ok (r, dll2)) :
    dllLookup dll2 name = some f := by
  simp only [get_c_method] at h
  split at h
  · exact absurd h (by simp)
  · rename_i method_name heqname
    split at h
    · obtain ⟨-, rfl⟩ : r = .unavailable ∧ dll2 = dll := by
        simpa using h.symm
      exact hf
    · split at h
      · exact absurd h (by simp)
      · rename_i c heqc
        split at h
        · obtain ⟨-, rfl⟩ : r = _ ∧ dll2 = dll := by
            simpa using h.symm
          exact hf
        · rename_i hcnone
          split at h
          · exact absurd h (by simp)
          · rename_i d heqd
            obtain ⟨-, rfl⟩ : r = _ ∧ dll2 = dllUpdate dll method_name _ := by
              simpa using h.symm
            by_cases hnm : method_name = name
            · subst hnm
              rw [hf] at heqc
              cases heqc
              rw [hcnone] at hats
              cases hats
            · rw [dllLookup_update_other dll method_name name _
                (fun hg => hnm hg.symm)]
              exact hf

/-- C2: the first `get_c_method` resolution that finds the native symbol
with no contract attaches exactly the receiver-prepended argument list and
the descriptor-overridden (else category-default, else none) result type;
once attached, every later `get_c_method` call returns the pair unchanged
and preserves the attached contract. -/
theorem binder_first_use_attaches_contract
    (obj : CObj) (method : MethodKey) (dll : Dll) (d : Descr)
    (name : String) (f : CFunc)
    (hname : (tdata (apiType obj)).fmt method = .ok name)
    (hd : lookupKey (tdata (apiType obj)).symbols method = some d)
    (hf : dllLookup dll name = some f)
    (hunset : f.argtypes = none) :
    ∃ f' : CFunc,
      f' = ⟨some (prependReceiver (tdata (apiType obj)).arg d.1),
            resultOf d.2 (tdata (apiType obj)).result⟩ ∧
      get_c_method obj method true dll =
        .ok (.bound name f', dllUpdate dll name f') ∧
      (∀ throw, get_c_method obj method throw (dllUpdate dll name f') =
        .ok (.bound name f', dllUpdate dll name f')) ∧
      (∀ obj2 method2 throw2 r dll3,
        get_c_method obj2 method2 throw2 (dllUpdate dll name f') =
          .ok (r, dll3) →
        dllLookup dll3 name = some f') := by
  refine ⟨⟨some (prependReceiver (tdata (apiType obj)).arg d.1),
          resultOf d.2 (tdata (apiType obj)).result⟩, rfl, ?_, ?_, ?_⟩
  · simp [get_c_method, hname, hf, hunset, hd]
  · intro throw
    have hlook := dllLookup_update_self dll name f
      ⟨some (prependReceiver (tdata (apiType obj)).arg d.1),
       resultOf d.2 (tdata (apiType obj)).result⟩ hf
    simp [get_c_method, hname, hlook]
  · intro obj2 method2 throw2 r dll3 h
    exact get_c_method_preserves_attached obj2 method2 throw2 _ dll3 r name _
      _ (dllLookup_update_self dll name f _ hf) rfl h

theorem binder_first_use_attaches_contract_witness :
    get_c_method (.tag .image) (.pair "set" "format") true
        [("MagickSetImageFormat", ⟨none, none⟩)] =
      .ok (.bound "MagickSetImageFormat"
             ⟨some [.MagickWand_p, .c_char_p], some .MagickBoolean⟩,
           [("MagickSetImageFormat",
             ⟨some [.MagickWand_p, .c_char_p], some .MagickBoolean⟩)]) := by
  obtain ⟨f', hf', h1, h2, h3⟩ :=
    binder_first_use_attaches_contract (.tag .image) (.pair "set" "format")
      [("MagickSetImageFormat", ⟨none, none⟩)]
      ([CType.c_char_p], some CType.MagickBoolean)
      "MagickSetImageFormat" ⟨none, none⟩ rfl rfl rfl rfl
  subst hf'
  exact h1

/-- C4: probing a symbol absent from the library with `throw=False`
returns the falsy unavailable sentinel without raising, the same probe
with `throw=True` raises, and for a present symbol both modes agree. -/
theorem binder_nothrow_probe
    (obj : CObj) (method : MethodKey) (dll : Dll) (name : String)
    (hname : (tdata (apiType obj)).fmt method = .ok name) :
    (dllLookup dll name = none →
      get_c_method obj method false dll = .ok (.unavailable, dll) ∧
      get_c_method obj method true dll = .error .attributeError) ∧
    (∀ f, dllLookup dll name = some f →
      get_c_method obj method false dll = get_c_method obj method true dll) := by
  constructor
  · intro habs
    exact ⟨by simp [get_c_method, hname, habs],
           by simp [get_c_method, hname, habs]⟩
  · intro f hf
    simp [get_c_method, hname, hf]

theorem binder_nothrow_probe_witness :
    get_c_method (.tag .magick_) (.str "relinquish_memory") false [] =
      .ok (.unavailable, []) ∧
    get_c_method (.tag .magick_) (.str "relinquish_memory") true [] =
      .error .attributeError ∧
    get_c_method (.tag .wand) (.str "new") false
        [("NewMagickWand", ⟨none, none⟩)] =
      get_c_method (.tag .wand) (.str "new") true
        [("NewMagickWand", ⟨none, none⟩)] := by
  refine ⟨?_, ?_, ?_⟩
  · exact ((binder_nothrow_probe (.tag .magick_) (.str "relinquish_memory")
      [] "MagickRelinquishMemory" rfl).1 rfl).1
  · exact ((binder_nothrow_probe (.tag .magick_) (.str "relinquish_memory")
      [] "MagickRelinquishMemory" rfl).1 rfl).2
  · exact (binder_nothrow_probe (.tag .wand) (.str "new")
      [("NewMagickWand", ⟨none, none⟩)] "NewMagickWand" rfl).2 ⟨none, none⟩ rfl

/-- C7: the category name formatters are pure functions computable before
the library is loaded; the receiver-less magick formatter yields the fixed
prefix plus the title-cased underscore-split token, and the image
formatter yields Magick + TitleCase(verb) + Image + TitleCase(noun), a
plain string acting as verb with empty noun. -/
theorem formatters_pure_formulas :
    (∀ name : String,
      (tdata Category.magick_).fmt (.str name) = .ok (magick_format name) ∧
      magick_format name = "Magick" ++ joinTitle name) ∧
    (∀ s : String,
      image_format (.str s) = "Magick" ++ joinTitle s ++ "Image") ∧
    (∀ v n : String,
      image_format (.pair v n) =
        "Magick" ++ joinTitle v ++ "Image" ++ joinTitle n) := by
  refine ⟨fun name => ⟨rfl, rfl⟩, fun s => ?_, fun v n => rfl⟩
  show "Magick" ++ joinTitle s ++ "Image" ++ joinTitle "" =
    "Magick" ++ joinTitle s ++ "Image"
  have h : joinTitle "" = "" := rfl
  rw [h]
  apply String.ext
  rw [String.data_append]
  exact List.append_nil _

theorem zipWith_get?_some {α β γ : Type} (f : α → β → γ) (l1 : List α) :
    ∀ (l2 : List β) (i : Nat) (a : α) (b : β),
    l1.get? i = some a → l2.get? i = some b →
    (List.zipWith f l1 l2).get? i = some (f a b) := by
  induction l1 with
  | nil => intro l2 i a b h1 _; simp at h1
  | cons x xs ih =>
    intro l2 i a b h1 h2
    cases l2 with
    | nil => simp at h2
    | cons y ys =>
      cases i with
      | zero => simp_all
      | succ j =>
        simp only [List.zipWith_cons_cons, List.get?_cons_succ] at h1 h2 ⊢
        exact ih ys j a b h1 h2

theorem zipWith_length {α β γ : Type} (f : α → β → γ) (l1 : List α) :
    ∀ l2 : List β,
    (List.zipWith f l1 l2).length = min l1.length l2.length := by
  induction l1 with
  | nil => intro l2; simp
  | cons x xs ih =>
    intro l2
    cases l2 with
    | nil => simp
    | cons y ys => simp [ih ys, Nat.succ_min_succ]

theorem zipWith_truncates {α β γ : Type} (f : α → β → γ) (l2 : List β) :
    ∀ (l1 extra : List α), l2.length ≤ l1.length →
    List.zipWith f (l1 ++ extra) l2 = List.zipWith f l1 l2 := by
  induction l2 with
  | nil => intro l1 extra _; simp
  | cons y ys ih =>
    intro l1 extra h
    cases l1 with
    | nil => simp at h
    | cons x xs =>
      simp only [List.cons_append, List.zipWith_cons_cons]
      rw [ih xs extra (by simpa using h)]

theorem receiverPrepended_append (obj : CObj) (args extra : List Value) :
    receiverPrepended obj (args ++ extra) =
      receiverPrepended obj args ++ extra := by
  cases obj <;> rfl

/-- C5: a `Resource` receiver is unwrapped to its raw pointer and
prepended as the first native argument, every `Resource` argument is
unwrapped exactly once at its position, a textual argument at a declared
`c_char_p` position is encoded to bytes, and the native symbol is invoked
with exactly this marshaled list. -/
theorem c_call_marshals_arguments
    (env : NativeEnv) (dll dll1 : Dll) (p : Nat) (cat : Category)
    (method : MethodKey) (args : List Value) (name : String) (f : CFunc)
    (t0 : CType) (ts : List CType) (fuel : Nat)
    (hres : get_c_method (.resource p cat) method true dll =
      .ok (.bound name f, dll1))
    (hat : f.argtypes = some (t0 :: ts)) :
    marshal_args (.resource p cat) args (t0 :: ts) =
      .ptr p :: List.zipWith (fun a t => marshalOne t a) args ts ∧
    (∀ (i : Nat) (a : Value) (t : CType),
      args.get? i = some a → ts.get? i = some t →
      (marshal_args (.resource p cat) args (t0 :: ts)).get? (i + 1) =
        some (marshalOne t a)) ∧
    (∀ (q : Nat) (t : CType), marshalOne t (.res q) = .ptr q) ∧
    (∀ s : String, marshalOne CType.c_char_p (.str s) = .bytes s) ∧
    ∃ rest : Trace,
      (c_call (fuel + 1) env dll (.resource p cat) method args).2.2 =
        (name, marshal_args (.resource p cat) args (t0 :: ts)) :: rest := by
  refine ⟨rfl, ?_, fun q t => rfl, fun s => rfl, ?_⟩
  · intro i a t h1 h2
    show (Value.ptr p ::
      List.zipWith (fun a t => marshalOne t a) args ts).get? (i + 1) = _
    rw [List.get?_cons_succ]
    exact zipWith_get?_some _ args ts i a t h1 h2
  · simp only [c_call, hres, hat, Option.getD_some]
    split
    · exact ⟨[], rfl⟩
    · split
      · exact ⟨[], rfl⟩
      · split
        · split
          · exact ⟨[], rfl⟩
          · split
            · split
              · exact ⟨_, rfl⟩
              · exact ⟨_, rfl⟩
            · exact ⟨_, rfl⟩
        · exact ⟨[], rfl⟩

theorem c_call_marshals_arguments_witness :
    marshal_args (.resource 7 .image) [.str "png"]
        [CType.MagickWand_p, CType.c_char_p] = [.ptr 7, .bytes "png"] ∧
    (marshal_args (.resource 7 .image) [.str "png"]
        [CType.MagickWand_p, CType.c_char_p]).get? 1 =
      some (marshalOne CType.c_char_p (.str "png")) := by
  have h := c_call_marshals_arguments
    ⟨fun _ _ => Value.null, fun _ => ""⟩
    [("MagickSetImageFormat",
      ⟨some [CType.MagickWand_p, CType.c_char_p], some CType.MagickBoolean⟩)]
    [("MagickSetImageFormat",
      ⟨some [CType.MagickWand_p, CType.c_char_p], some CType.MagickBoolean⟩)]
    7 Category.image (.pair "set" "format") [.str "png"]
    "MagickSetImageFormat"
    ⟨some [CType.MagickWand_p, CType.c_char_p], some CType.MagickBoolean⟩
    CType.MagickWand_p [CType.c_char_p] 0 rfl rfl
  exact ⟨h.1, h.2.1 0 (.str "png") CType.c_char_p rfl rfl⟩

/-- C10: only the first k arguments are marshaled and passed, where k is
the length of the declared argument-type list: the passed list is the
zip-truncation (its length is the minimum of the two lengths), extra
arguments beyond the contract are dropped without changing the call
outcome, and the native symbol receives exactly the zipped list. -/
theorem c_call_zip_drops_extra_arguments
    (env : NativeEnv) (dll dll1 : Dll) (obj : CObj) (method : MethodKey)
    (args : List Value) (name : String) (f : CFunc) (ats : List CType)
    (fuel : Nat)
    (hres : get_c_method obj method true dll = .ok (.bound name f, dll1))
    (hat : f.argtypes = some ats) :
    (marshal_args obj args ats).length =
      min (receiverPrepended obj args).length ats.length ∧
    (∀ extra : List Value,
      ats.length ≤ (receiverPrepended obj args).length →
      c_call (fuel + 1) env dll obj method (args ++ extra) =
        c_call (fuel + 1) env dll obj method args) ∧
    ∃ rest : Trace,
      (c_call (fuel + 1) env dll obj method args).2.2 =
        (name, marshal_args obj args ats) :: rest := by
  refine ⟨zipWith_length _ _ _, ?_, ?_⟩
  · intro extra hle
    have htr : marshal_args obj (args ++ extra) ats =
        marshal_args obj args ats := by
      rw [marshal_args, receiverPrepended_append,
        zipWith_truncates _ ats _ extra hle]
      rfl
    simp only [c_call, hres, hat, Option.getD_some, htr]
  · simp only [c_call, hres, hat, Option.getD_some]
    split
    · exact ⟨[], rfl⟩
    · split
      · exact ⟨[], rfl⟩
      · split
        · split
          · exact ⟨[], rfl⟩
          · split
            · split
              · exact ⟨_, rfl⟩
              · exact ⟨_, rfl⟩
            · exact ⟨_, rfl⟩
        · exact ⟨[], rfl⟩

theorem c_call_zip_drops_extra_arguments_witness :
    c_call 1 ⟨fun _ _ => Value.bytes "6.7.3", fun _ => ""⟩
        [("MagickGetVersion", ⟨some [CType.ptr CType.c_size_t],
          some CType.c_char_p⟩)]
        (.tag .magick_) (.str "get_version") [.excTypeOut, .int 5] =
      c_call 1 ⟨fun _ _ => Value.bytes "6.7.3", fun _ => ""⟩
        [("MagickGetVersion", ⟨some [CType.ptr CType.c_size_t],
          some CType.c_char_p⟩)]
        (.tag .magick_) (.str "get_version") [.excTypeOut] := by
  have h := c_call_zip_drops_extra_arguments
    ⟨fun _ _ => Value.bytes "6.7.3", fun _ => ""⟩
    [("MagickGetVersion", ⟨some [CType.ptr CType.c_size_t],
      some CType.c_char_p⟩)]
    [("MagickGetVersion", ⟨some [CType.ptr CType.c_size_t],
      some CType.c_char_p⟩)]
    (.tag .magick_) (.str "get_version") [.excTypeOut]
    "MagickGetVersion"
    ⟨some [CType.ptr CType.c_size_t], some CType.c_char_p⟩
    [CType.ptr CType.c_size_t] 0 rfl rfl
  exact h.2.1 [.int 5] (by decide)

/-- C1: when the bound contract's result type is `MagickBoolean` and the
native callable returns a falsy value, `c_call` queries the originating
handle's exception facility (`'magick'`/`'get_exception'` invoked on the
unwrapped receiver pointer), raises a `PystaciaException` carrying the
fetched description converted to text, and releases the description
buffer (`'magick_'`/`'relinquish_memory'`) before the exception
propagates; on a truthy value no exception facility is queried and the
value is returned. -/
theorem c_call_boolean_failure_raises
    (env : NativeEnv) (dll dll1 : Dll) (p : Nat) (cat : Category)
    (method : MethodKey) (args : List Value) (name : String) (f : CFunc)
    (t0 : CType) (ts : List CType) (fuel : Nat)
    (hres : get_c_method (.resource p cat) method true dll =
      .ok (.bound name f, dll1))
    (hat : f.argtypes = some (t0 :: ts))
    (hrt : f.restype = some CType.MagickBoolean)
    (hge : dllLookup dll1 "MagickGetException" =
      some ⟨some [CType.MagickWand_p, CType.ptr CType.exceptionType],
            some CType.c_void_p⟩)
    (hrel : dllLookup dll1 "MagickRelinquishMemory" =
      some ⟨some [CType.c_void_p], some CType.c_void_p⟩) :
    (env.call name (marshal_args (.resource p cat) args (t0 :: ts)) =
        .boolV false →
      c_call (fuel + 1 + 1) env dll (.resource p cat) method args =
        (.error (.pystacia (some (env.stringAt
            (env.call "MagickGetException" [.ptr p, .excTypeOut])))),
         dll1,
         [(name, marshal_args (.resource p cat) args (t0 :: ts)),
          ("MagickGetException", [.ptr p, .excTypeOut]),
          ("MagickRelinquishMemory",
           [marshalOne CType.c_void_p
             (env.call "MagickGetException" [.ptr p, .excTypeOut])])])) ∧
    (env.call name (marshal_args (.resource p cat) args (t0 :: ts)) =
        .boolV true →
      c_call (fuel + 1 + 1) env dll (.resource p cat) method args =
        (.ok (.boolV true), dll1,
         [(name, marshal_args (.resource p cat) args (t0 :: ts))])) := by
  have hfmt_ge : (tdata Category.magick).fmt (.str "get_exception") =
    .ok "MagickGetException" := rfl
  have hfmt_rel : (tdata Category.magick_).fmt (.str "relinquish_memory") =
    .ok "MagickRelinquishMemory" := rfl
  have hhead : marshal_args (.resource p cat) args (t0 :: ts) =
      .ptr p :: List.zipWith (fun a t => marshalOne t a) args ts := rfl
  have h_ge_call : c_call (fuel + 1) env dll1 (.tag .magick)
      (.str "get_exception") [.ptr p, .excTypeOut] =
      (.ok (env.call "MagickGetException" [.ptr p, .excTypeOut]), dll1,
       [("MagickGetException", [.ptr p, .excTypeOut])]) := by
    simp [c_call, get_c_method, apiType, hfmt_ge, hge, marshal_args,
      receiverPrepended, marshalOne]
  have h_rel_call : c_call (fuel + 1) env dll1 (.tag .magick_)
      (.str "relinquish_memory")
      [env.call "MagickGetException" [.ptr p, .excTypeOut]] =
      (.ok (env.call "MagickRelinquishMemory"
         [marshalOne CType.c_void_p
           (env.call "MagickGetException" [.ptr p, .excTypeOut])]), dll1,
       [("MagickRelinquishMemory",
         [marshalOne CType.c_void_p
           (env.call "MagickGetException" [.ptr p, .excTypeOut])])]) := by
    simp [c_call, get_c_method, apiType, hfmt_rel, hrel, marshal_args,
      receiverPrepended]
  constructor
  · intro hcall
    rw [hhead] at hcall
    rw [c_call]
    simp [hres, hat, hrt, hcall, hhead, h_ge_call, h_rel_call, boolVFalsy]
  · intro hcall
    rw [hhead] at hcall
    rw [c_call]
    simp [hres, hat, hrt, hcall, hhead, boolVFalsy]

theorem c_call_boolean_failure_raises_witness :
    c_call 2
      ⟨fun nm _ => if nm = "MagickGetException" then Value.ptr 99
        else if nm = "MagickReadImage" then Value.boolV false
        else Value.null,
       fun _ => "unable to open image"⟩
      [("MagickReadImage",
        ⟨some [CType.MagickWand_p, CType.c_char_p],
         some CType.MagickBoolean⟩),
       ("MagickGetException",
        ⟨some [CType.MagickWand_p, CType.ptr CType.exceptionType],
         some CType.c_void_p⟩),
       ("MagickRelinquishMemory",
        ⟨some [CType.c_void_p], some CType.c_void_p⟩)]
      (.resource 7 .image) (.str "read") [.str "f.png"] =
    (.error (.pystacia (some "unable to open image")),
     [("MagickReadImage",
       ⟨some [CType.MagickWand_p, CType.c_char_p],
        some CType.MagickBoolean⟩),
      ("MagickGetException",
       ⟨some [CType.MagickWand_p, CType.ptr CType.exceptionType],
        some CType.c_void_p⟩),
      ("MagickRelinquishMemory",
       ⟨some [CType.c_void_p], some CType.c_void_p⟩)],
     [("MagickReadImage", [.ptr 7, .bytes "f.png"]),
      ("MagickGetException", [.ptr 7, .excTypeOut]),
      ("MagickRelinquishMemory", [.ptr 99])]) := by
  have h := (c_call_boolean_failure_raises
    ⟨fun nm _ => if nm = "MagickGetException" then Value.ptr 99
      else if nm = "MagickReadImage" then Value.boolV false
      else Value.null,
     fun _ => "unable to open image"⟩
    [("MagickReadImage",
      ⟨some [CType.MagickWand_p, CType.c_char_p],
       some CType.MagickBoolean⟩),
     ("MagickGetException",
      ⟨some [CType.MagickWand_p, CType.ptr CType.exceptionType],
       some CType.c_void_p⟩),
     ("MagickRelinquishMemory",
      ⟨some [CType.c_void_p], some CType.c_void_p⟩)]
    [("MagickReadImage",
      ⟨some [CType.MagickWand_p, CType.c_char_p],
       some CType.MagickBoolean⟩),
     ("MagickGetException",
      ⟨some [CType.MagickWand_p, CType.ptr CType.exceptionType],
       some CType.c_void_p⟩),
     ("MagickRelinquishMemory",
      ⟨some [CType.c_void_p], some CType.c_void_p⟩)]
    7 Category.image (.str "read") [.str "f.png"] "MagickReadImage"
    ⟨some [CType.MagickWand_p, CType.c_char_p], some CType.MagickBoolean⟩
    CType.MagickWand_p [CType.c_char_p] 0 rfl rfl rfl rfl rfl).1 rfl
  exact h

/-- C3 counterexample: with an exception facility returning a NULL
description, `guard` raises a `PystaciaException` whose message is `None`
— no generic message is substituted, so the error message is empty. -/
theorem guard_empty_message_counterexample :
    (Api.guard ⟨fun _ => Value.null, fun _ => none⟩ (.ptr 1) (.boolV false)
        none).1 = .error (.pystacia none) ∧
    (Api.guard ⟨fun _ => Value.null, fun _ => none⟩ (.ptr 1) (.boolV false)
        none).2 = [("MagickGetException", [.ptr 1])] := by
  constructor <;> rfl

/-- C3 (amended): on a falsy native result with no caller-supplied
message, `guard` always queries the exception facility of the originating
wand and raises a structured error carrying exactly the fetched
description — which may be `None`/empty when the facility yields none; no
generic fallback message is substituted. -/
theorem guard_message_is_fetched_description
    (env : GuardEnv) (wand result : Value)
    (hfail : valueFalsy result = true) :
    (Api.guard env wand result none).1 =
      .error (.pystacia (env.castCharP (env.getException wand))) ∧
    (Api.guard env wand result none).2.head? =
      some ("MagickGetException", [wand]) := by
  by_cases hd : valueFalsy (env.getException wand) <;>
    simp [Api.guard, hfail, hd]

theorem guard_message_is_fetched_description_witness :
    (Api.guard ⟨fun _ => Value.ptr 42, fun _ => some "boom"⟩ (.ptr 1)
        (.boolV false) none).1 = .error (.pystacia (some "boom")) ∧
    (Api.guard ⟨fun _ => Value.ptr 42, fun _ => some "boom"⟩ (.ptr 1)
        (.boolV false) none).2.head? =
      some ("MagickGetException", [.ptr 1]) := by
  have h := guard_message_is_fetched_description
    ⟨fun _ => Value.ptr 42, fun _ => some "boom"⟩ (.ptr 1) (.boolV false)
    rfl
  exact h

/-- C6: closing a live image destroys the native wand and marks the image
closed; afterwards every `only_live` operation — a second `close()`
included — raises the closed-image error locally with an empty native
trace, and `__del__` on the closed image performs no native call, so the
native destroy runs at most once per handle. -/
theorem image_close_idempotent_guard
    {α : Type} (image : TImage) (f : TImage → TOutcome α)
    (hlive : image.closed = false) :
    close image =
      (.ok (), ⟨none, true⟩, [("DestroyMagickWand", [wandValue image])]) ∧
    only_live f ⟨none, true⟩ =
      (.error (.tiny "Image already closed"), ⟨none, true⟩, []) ∧
    close (⟨none, true⟩ : TImage) =
      (.error (.tiny "Image already closed"), ⟨none, true⟩, []) ∧
    del (⟨none, true⟩ : TImage) = (.ok (), ⟨none, true⟩, []) := by
  refine ⟨?_, ?_, ?_, ?_⟩
  · simp [close, only_live, closeBody, hlive]
  · simp [only_live]
  · simp [close, only_live]
  · simp [del]

theorem image_close_idempotent_guard_witness :
    close (⟨some 5, false⟩ : TImage) =
      (.ok (), ⟨none, true⟩, [("DestroyMagickWand", [.ptr 5])]) ∧
    close (⟨none, true⟩ : TImage) =
      (.error (.tiny "Image already closed"), ⟨none, true⟩, []) ∧
    del (⟨none, true⟩ : TImage) = (.ok (), ⟨none, true⟩, []) := by
  have h := image_close_idempotent_guard (⟨some 5, false⟩ : TImage)
    (fun i => ((.ok 0 : Except PyErr Nat), i, [("MagickFlipImage",
      [wandValue i])])) rfl
  exact ⟨h.1, h.2.2.1, h.2.2.2⟩

/-- C8: `get_bridge` wraps the direct `SimpleImpl` policy exactly when
the `PYSTACIA_IMPL` environment value upper-cases to SIMPLE and the
funneled `ThreadImpl(True)` policy otherwise (absence included); the
memoization cache makes every later call, under any environment value,
return the identical bridge. -/
theorem bridge_policy_selected_once (envImpl : Option String) :
    (get_bridge envImpl none).1.impl =
      (if pyUpper (envImpl.getD "") = "SIMPLE" then Impl.simpleImpl
       else Impl.threadImpl true) ∧
    ((get_bridge envImpl none).1.impl = Impl.simpleImpl ↔
      pyUpper (envImpl.getD "") = "SIMPLE") ∧
    (∀ envImpl2 : Option String,
      get_bridge envImpl2 (get_bridge envImpl none).2 =
        ((get_bridge envImpl none).1, (get_bridge envImpl none).2)) := by
  refine ⟨rfl, ?_, fun envImpl2 => rfl⟩
  by_cases h : pyUpper (envImpl.getD "") = "SIMPLE" <;>
    simp [get_bridge, h]

/-- C9: `init` raises fatally when the shared library cannot be found or
loaded; on success the genesis call is the only native call made during
initialization — hence it precedes every other native call — and the
terminus call is registered as an exit hook rather than invoked. -/
theorem init_genesis_terminus (env : LoadEnv) :
    (env.loadCDLL (env.findLibrary "magickWand") = none →
      init env =
        (.error (.tiny "Could not find or load magickWand"), [], [])) ∧
    (∀ handle, env.loadCDLL (env.findLibrary "magickWand") = some handle →
      init env =
        (.ok handle, [("MagickWandGenesis", [])], ["MagickWandTerminus"]) ∧
      ∀ vargs : List Value,
        ("MagickWandTerminus", vargs) ∉ (init env).2.1) := by
  constructor
  · intro h
    simp [init, h]
  · intro handle h
    constructor
    · simp [init, h]
    · intro vargs hmem
      rw [show (init env).2.1 = [("MagickWandGenesis", [])] by
        simp [init, h]] at hmem
      simp at hmem

theorem init_genesis_terminus_witness :
    init ⟨fun _ => none, fun _ => none⟩ =
      (.error (.tiny "Could not find or load magickWand"), [], []) ∧
    init ⟨fun _ => some "libMagickWand.so", fun _ => some 3⟩ =
      (.ok 3, [("MagickWandGenesis", [])], ["MagickWandTerminus"]) :=
  ⟨(init_genesis_terminus ⟨fun _ => none, fun _ => none⟩).1 rfl,
   ((init_genesis_terminus
      ⟨fun _ => some "libMagickWand.so", fun _ => some 3⟩).2 3 rfl).1⟩

theorem bridge_policy_selected_once_witness :
    (get_bridge (some "simple") none).1.impl = Impl.simpleImpl ∧
    (get_bridge none none).1.impl = Impl.threadImpl true ∧
    get_bridge (some "whatever") (get_bridge none none).2 =
      ((get_bridge none none).1, (get_bridge none none).2) := by
  refine ⟨?_, ?_, (bridge_policy_selected_once none).2.2 (some "whatever")⟩
  · exact (bridge_policy_selected_once (some "simple")).2.1.mpr (by decide)
  · have h := (bridge_policy_selected_once none).1
    rw [if_neg (by decide :
      ¬ pyUpper ((none : Option String).getD "") = "SIMPLE")] at h
    exact h
